import Mathlib

set_option maxRecDepth 10000

/-!
Verification of the hierarchical content segmenter, document identity
generator and index sync engine of `vuepress-plugin-meilisearch-indexer`
(`src/index.ts`), via a shallow embedding of the TypeScript source into
Lean.  Machine-level details that matter to the claims are kept faithful:

* JavaScript distinguishes `null` from `undefined`; heading frames store
  the raw `id` attribute which is `undefined` when absent, while the
  synthetic level-0 title frame stores `null` (`JsVal` below).
* JavaScript truthiness (`anchor ? _ : _`, `text || null`) treats the
  empty string like `null`/`undefined`.
* `String.prototype.replace(/[\n\s]+/gu, ' ')` collapses every run of
  whitespace characters to a single space; `trim()` strips them at the
  ends (`isJsWhitespace`, `collapseRuns`, `jsTrim`, `normalizeContent`).
-/

namespace Meili

/-- The ECMAScript `\s` character class (WhiteSpace ∪ LineTerminator),
used by `replace(/[\n\s]+/gu, ' ')`, `replace(/\s+/gu, ' ')` and `trim()`. -/
def isJsWhitespace (c : Char) : Bool :=
  c.toNat = 0x09 || c.toNat = 0x0A || c.toNat = 0x0B || c.toNat = 0x0C ||
  c.toNat = 0x0D || c.toNat = 0x20 || c.toNat = 0xA0 || c.toNat = 0x1680 ||
  (0x2000 ≤ c.toNat && c.toNat ≤ 0x200A) || c.toNat = 0x2028 ||
  c.toNat = 0x2029 || c.toNat = 0x202F || c.toNat = 0x205F ||
  c.toNat = 0x3000 || c.toNat = 0xFEFF

/-- Collapse every maximal run of whitespace characters to a single space.
The boolean records whether the previous character was part of a run.
Embeds `.replace(/[\n\s]+/gu, ' ')` (and `.replace(/\s+/gu, ' ')`, which
replaces the same character set). -/
def collapseRuns (prevWs : Bool) : List Char → List Char
  | [] => []
  | c :: rest =>
    if isJsWhitespace c then
      if prevWs then collapseRuns true rest
      else ' ' :: collapseRuns true rest
    else c :: collapseRuns false rest

/-- Embeds `String.prototype.trim()`. -/
def jsTrim (s : String) : String :=
  ⟨((s.data.dropWhile isJsWhitespace).reverse.dropWhile isJsWhitespace).reverse⟩

/-- Embeds `indexedText.replace(/[\n\s]+/gu, ' ').trim()` from
`addTextToIndex` (and the identical normalization of heading text in
`renderHeader`). -/
def normalizeContent (s : String) : String :=
  jsTrim ⟨collapseRuns false s.data⟩

/-! ### SHA-1 (`createHash('sha1').update(src).digest('hex')`)

Node's `crypto` module is external to the repository; the algorithm it
names is standard SHA-1, implemented here over `Nat` bytes/words with
explicit reduction modulo `2^32`. -/

/-- Reduce to a 32-bit word. -/
def w32 (n : Nat) : Nat := n % 4294967296

/-- Left-rotation of a 32-bit word. -/
def rotl (k x : Nat) : Nat := w32 ((x <<< k) ||| (x >>> (32 - k)))

/-- Big-endian byte expansion of `n` into `k` bytes. -/
def beBytes (k n : Nat) : List Nat :=
  (List.range k).map (fun i => (n >>> (8 * (k - 1 - i))) % 256)

/-- Standard UTF-8 encoding of one character, as byte values. -/
def utf8EncodeChar (c : Char) : List Nat :=
  let n := c.toNat
  if n < 0x80 then [n]
  else if n < 0x800 then
    [0xC0 ||| (n >>> 6), 0x80 ||| (n &&& 0x3F)]
  else if n < 0x10000 then
    [0xE0 ||| (n >>> 12), 0x80 ||| ((n >>> 6) &&& 0x3F), 0x80 ||| (n &&& 0x3F)]
  else
    [0xF0 ||| (n >>> 18), 0x80 ||| ((n >>> 12) &&& 0x3F),
     0x80 ||| ((n >>> 6) &&& 0x3F), 0x80 ||| (n &&& 0x3F)]

/-- SHA-1 message padding: `0x80`, zeros up to 56 mod 64, then the
64-bit big-endian bit length. -/
def sha1Pad (msg : List Nat) : List Nat :=
  let len := msg.length
  msg ++ 0x80 :: List.replicate ((119 - len % 64) % 64) 0 ++ beBytes 8 (8 * len)

/-- Split a byte list into 64-byte chunks; the fuel argument (instantiated
with the list length) makes the recursion structural. -/
def chunksAux : Nat → List Nat → List (List Nat)
  | _, [] => []
  | 0, _ :: _ => []
  | fuel + 1, x :: rest => (x :: rest.take 63) :: chunksAux fuel (rest.drop 63)

/-- Split a byte list into 64-byte chunks. -/
def chunks64 (l : List Nat) : List (List Nat) := chunksAux l.length l

/-- Combine bytes into 32-bit big-endian words. -/
def bytesToWords : List Nat → List Nat
  | b0 :: b1 :: b2 :: b3 :: rest =>
      ((b0 <<< 24) ||| (b1 <<< 16) ||| (b2 <<< 8) ||| b3) :: bytesToWords rest
  | _ => []

/-- SHA-1 message schedule: extend 16 words to 80. -/
def sha1Schedule (w16 : List Nat) : List Nat :=
  (List.range 64).foldl
    (fun w _ =>
      w ++ [rotl 1 ((w.getD (w.length - 3) 0) ^^^ (w.getD (w.length - 8) 0) ^^^
                    (w.getD (w.length - 14) 0) ^^^ (w.getD (w.length - 16) 0))])
    w16

/-- One SHA-1 compression round. -/
def sha1Round (W : List Nat) (st : Nat × Nat × Nat × Nat × Nat) (t : Nat) :
    Nat × Nat × Nat × Nat × Nat :=
  let (a, b, c, d, e) := st
  let f :=
    if t < 20 then (b &&& c) ||| ((4294967295 ^^^ b) &&& d)
    else if t < 40 then b ^^^ c ^^^ d
    else if t < 60 then (b &&& c) ||| (b &&& d) ||| (c &&& d)
    else b ^^^ c ^^^ d
  let k :=
    if t < 20 then 0x5A827999
    else if t < 40 then 0x6ED9EBA1
    else if t < 60 then 0x8F1BBCDC
    else 0xCA62C1D6
  (w32 (rotl 5 a + f + e + k + W.getD t 0), a, rotl 30 b, c, d)

/-- SHA-1 compression of one 16-word block into the running state. -/
def sha1Compress (h : Nat × Nat × Nat × Nat × Nat) (block : List Nat) :
    Nat × Nat × Nat × Nat × Nat :=
  let W := sha1Schedule block
  let (h0, h1, h2, h3, h4) := h
  let (a, b, c, d, e) := (List.range 80).foldl (sha1Round W) (h0, h1, h2, h3, h4)
  (w32 (h0 + a), w32 (h1 + b), w32 (h2 + c), w32 (h3 + d), w32 (h4 + e))

/-- Lower-case hex digit. -/
def hexDigit (n : Nat) : Char :=
  if n < 10 then Char.ofNat (48 + n) else Char.ofNat (87 + n)

/-- Eight-hex-digit rendering of a 32-bit word. -/
def toHex32 (n : Nat) : String :=
  ⟨(List.range 8).map (fun i => hexDigit ((n >>> (4 * (7 - i))) % 16))⟩

/-- Hex-encoded SHA-1 of a string's UTF-8 bytes: embeds
`createHash('sha1').update(s).digest('hex')`. -/
def sha1Hex (s : String) : String :=
  let padded := sha1Pad (s.data.map utf8EncodeChar).flatten
  let blocks := (chunks64 padded).map bytesToWords
  let (h0, h1, h2, h3, h4) :=
    blocks.foldl sha1Compress (0x67452301, 0xEFCDAB89, 0x98BADCFE, 0x10325476, 0xC3D2E1F0)
  toHex32 h0 ++ toHex32 h1 ++ toHex32 h2 ++ toHex32 h3 ++ toHex32 h4

/-! ### Data model -/

/-- A JavaScript `string`-or-`null`-or-`undefined` value.  The heading
frames of `generatePageDocuments` store `null` for the synthetic title
frame and the raw `id` attribute (which is `undefined` when the attribute
is absent) for heading frames; `currentAnchor` filters with `!== null`,
so the distinction is observable. -/
inductive JsVal where
  | null
  | undef
  | str (s : String)
  deriving DecidableEq, Repr

/-- One entry of `currentHeading`:
`{ level: number; text: string; id: string | null }` (at runtime `id` can
also be `undefined`, see `JsVal`). -/
structure Frame where
  level : Nat
  text : String
  id : JsVal
  deriving DecidableEq, Repr

/-- A parsed markup node (`AnyNode` from the external parser): an element
with its `id`/`class` attributes and children, a text node, or a comment
node.  Parsing itself is external to the repository; pages carry their
parsed node list. -/
inductive Node where
  | tag (name : String) (idAttr : Option String) (classAttr : Option String)
        (children : List Node)
  | text (data : String)
  | comment (data : String)

/-- The flat output record (`MeiliSearchDocument` in the source). -/
structure MeiliSearchDocument where
  content : String
  url : String
  anchor : Option String
  objectID : String
  hierarchy_lvl0 : Option String
  hierarchy_lvl1 : Option String
  hierarchy_lvl2 : Option String
  hierarchy_lvl3 : Option String
  hierarchy_lvl4 : Option String
  hierarchy_lvl5 : Option String
  hierarchy_lvl6 : Option String
  hierarchy_radio_lvl0 : Option String
  hierarchy_radio_lvl1 : Option String
  hierarchy_radio_lvl2 : Option String
  hierarchy_radio_lvl3 : Option String
  hierarchy_radio_lvl4 : Option String
  hierarchy_radio_lvl5 : Option String
  lang : String
  level : Nat
  position : Nat
  page_rank : Int
  deriving DecidableEq, Repr

/-- The mutable locals of `generatePageDocuments` threaded through the
traversal. -/
structure SegState where
  shouldIndexContent : Bool
  currentHeading : List Frame
  indexedText : String
  position : Nat
  documents : List MeiliSearchDocument
  deriving DecidableEq, Repr

/-- The per-page constants captured by the closures inside
`generatePageDocuments`. -/
structure PageCtx where
  pageUrl : String
  lang : String
  pageRank : Int
  hasExcerpt : Bool
  indexContent : Bool
  deriving DecidableEq, Repr

/-- The slice of a VuePress `Page` the segmenter reads: `title`, `lang`,
`path`, the numeric `page_rank` frontmatter entry when present,
`Boolean(data.excerpt?.length)`, and the parsed node list
`$.parseHTML(contentRendered) ?? []`. -/
structure Page where
  title : String
  lang : String
  path : String
  pageRank : Option Int
  hasExcerpt : Bool
  nodes : List Node

/-! ### Header hierarchy and document construction -/

/-- Embeds `const { id } = node.attribs` — `undefined` when the attribute is
absent. -/
def jsOfAttr : Option String → JsVal
  | none => .undef
  | some s => .str s

/-- Embeds `currentHeading.find(h => h.level === i)?.text || null`. -/
def hierarchyLvl (frames : List Frame) (i : Nat) : Option String :=
  match frames.find? (fun h => h.level == i) with
  | some h => if h.text = "" then none else some h.text
  | none => none

/-- Embeds `currentHeading.length > 0 ? Math.max(...currentHeading.map(h => h.level)) : 0`. -/
def currentLevelOf (frames : List Frame) : Nat :=
  if frames.length > 0 then (frames.map Frame.level).foldl max 0 else 0

/-- One step of the maximal-level selection: keep the earlier frame on
ties, so the fold below returns the leftmost frame of maximal level —
what a stable descending sort puts at index 0. -/
def pickDeeper (acc : Option Frame) (h : Frame) : Option Frame :=
  match acc with
  | none => some h
  | some a => if h.level > a.level then some h else acc

/-- The first frame of maximal level among those with `id !== null`:
`currentHeading.filter(h => h.id !== null).sort((a, b) => b.level - a.level)[0]`
(the sort is stable and descending, so index 0 is the leftmost frame of
maximal level). -/
def deepestNonNull (frames : List Frame) : Option Frame :=
  (frames.filter (fun h => h.id != JsVal.null)).foldl pickDeeper none

/-- Embeds `...[0]?.id || null`: `undefined` ids and empty-string ids both
collapse to `null`. -/
def currentAnchorOf (frames : List Frame) : Option String :=
  match deepestNonNull frames with
  | some h =>
    match h.id with
    | .str s => if s = "" then none else some s
    | _ => none
  | none => none

/-- Embeds `const idSource = anchor ? url#anchor-position : url` — note the
JavaScript truthiness test: an empty-string anchor takes the `url`
branch. -/
def idSource (url : String) (anchor : Option String) (position : Nat) : String :=
  match anchor with
  | some a =>
    if a = "" then url else url ++ "#" ++ a ++ "-" ++ toString position
  | none => url

/-- Function `generateObjectID` from the source. -/
def generateObjectID (url : String) (anchor : Option String) (position : Nat) : String :=
  sha1Hex (idSource url anchor position)

/-- Function `addTextToIndex` from the source: when indexing is active, normalize
the accumulated text, snapshot the heading hierarchy, append one document
and reset the accumulator; otherwise do nothing (the accumulator is NOT
cleared). -/
def addTextToIndex (ctx : PageCtx) (st : SegState) : SegState :=
  if st.shouldIndexContent then
    let content := normalizeContent st.indexedText
    let currentAnchor := currentAnchorOf st.currentHeading
    let currentPosition := st.position
    { st with
      indexedText := ""
      position := st.position + 1
      documents := st.documents ++ [{
        content := content
        url := ctx.pageUrl
        anchor := currentAnchor
        objectID := generateObjectID ctx.pageUrl currentAnchor currentPosition
        hierarchy_lvl0 := hierarchyLvl st.currentHeading 0
        hierarchy_lvl1 := hierarchyLvl st.currentHeading 1
        hierarchy_lvl2 := hierarchyLvl st.currentHeading 2
        hierarchy_lvl3 := hierarchyLvl st.currentHeading 3
        hierarchy_lvl4 := hierarchyLvl st.currentHeading 4
        hierarchy_lvl5 := hierarchyLvl st.currentHeading 5
        hierarchy_lvl6 := hierarchyLvl st.currentHeading 6
        hierarchy_radio_lvl0 := hierarchyLvl st.currentHeading 0
        hierarchy_radio_lvl1 := hierarchyLvl st.currentHeading 1
        hierarchy_radio_lvl2 := hierarchyLvl st.currentHeading 2
        hierarchy_radio_lvl3 := hierarchyLvl st.currentHeading 3
        hierarchy_radio_lvl4 := hierarchyLvl st.currentHeading 4
        hierarchy_radio_lvl5 := hierarchyLvl st.currentHeading 5
        lang := if ctx.lang = "" then "en" else ctx.lang
        level := currentLevelOf st.currentHeading
        position := currentPosition
        page_rank := ctx.pageRank }] }
  else st

/-! ### The node-tree walk (`render`) -/

/-- Tag list `HEADING_TAGS` from the source. -/
def HEADING_TAGS : List String := ["h1", "h2", "h3", "h4", "h5", "h6"]

/-- Tag list `CONTENT_BLOCK_TAGS` from the source. -/
def CONTENT_BLOCK_TAGS : List String :=
  ["header", "nav", "section", "div", "dd", "dl", "dt", "figcaption",
   "figure", "picture", "hr", "li", "main", "ol", "p", "ul", "caption",
   "table", "thead", "tbody", "tfoot", "th", "tr", "td", "datalist",
   "fieldset", "form", "legend", "optgroup", "option", "select",
   "details", "dialog", "menu", "menuitem", "summary", "blockquote", "pre"]

/-- Tag list `CONTENT_INLINE_TAGS` from the source. -/
def CONTENT_INLINE_TAGS : List String :=
  ["routelink", "routerlink", "a", "b", "abbr", "bdi", "bdo", "cite",
   "code", "dfn", "em", "i", "kbd", "mark", "q", "rp", "rt", "ruby", "s",
   "samp", "small", "span", "strong", "sub", "sup", "time", "u", "var",
   "wbr", "del", "ins", "button", "label", "legend", "meter", "optgroup",
   "option", "output", "progress", "select"]

/-- Embeds `node.name.toLowerCase()`. -/
def lowerStr (s : String) : String := ⟨s.data.map Char.toLower⟩

/-- Decimal value of a non-empty all-digit character list, else `none`. -/
def digitsToNat? (cs : List Char) : Option Nat :=
  if cs ≠ [] ∧ cs.all Char.isDigit then
    some (cs.foldl (fun a c => a * 10 + (c.toNat - 48)) 0)
  else none

/-- Embeds `parseInt(tagName.substring(1), 10)` for a heading tag
`h1`–`h6` (the only call sites); `0` stands in for `NaN` on
non-numeric input, which no call site produces. -/
def headingLevel (tagName : String) : Nat :=
  (digitsToNat? (tagName.data.drop 1)).getD 0

/-- Predicate `isExcerptMarker`: a comment node whose trimmed data is `more`. -/
def isExcerptMarker : Node → Bool
  | .comment d => jsTrim d == "more"
  | _ => false

/-- Children of an element node; JavaScript would yield `undefined` (and
crash on the subsequent `.map`) for text/comment nodes, which `renderHeader`
only reaches through the unreachable cast in the anchor-unwrap case. -/
def childrenOf : Node → List Node
  | .tag _ _ _ cs => cs
  | _ => []

/-- The anchor-unwrap step of `renderHeader`: if the sole child is an
`<a class="header-anchor">` wrapper, descend into its first child's
children. -/
def headerChildren (children : List Node) : List Node :=
  match children with
  | [Node.tag name _ cls inner] =>
    if name = "a" ∧ cls = some "header-anchor" then
      match inner with
      | c :: _ => childrenOf c
      | [] => []
    else children
  | _ => children

/-- Function `renderHeader` from the source: join the direct text children with
spaces (dropping `null` and empty strings, as `filter(Boolean)` does),
collapse whitespace runs and trim. -/
def renderHeader (node : Node) : String :=
  normalizeContent (String.intercalate " "
    ((headerChildren (childrenOf node)).filterMap (fun c =>
      match c with
      | Node.text d => if d = "" then none else some d
      | _ => none)))

mutual

/-- Function `render` from the source: classify a node and update the traversal
state.  Headings flush, then evict frames of level ≥ their own and push a
new frame; block tags flush and recurse (entering `pre` sets the
whitespace-preserve flag); inline tags recurse; unclassified tags are
ignored; text nodes append to the accumulator unless whitespace-only
outside a preserve context; the excerpt marker comment turns content
indexing off. -/
def render (ctx : PageCtx) (node : Node) (preserveSpace : Bool) (st : SegState) :
    SegState :=
  match node with
  | .tag name idAttr classAttr children =>
    let tagName := lowerStr name
    if tagName ∈ HEADING_TAGS then
      let headerText := renderHeader (.tag name idAttr classAttr children)
      let st1 := addTextToIndex ctx st
      let level := headingLevel tagName
      { st1 with
        currentHeading :=
          st1.currentHeading.filter (fun h => h.level < level) ++
            [{ level := level, text := headerText, id := jsOfAttr idAttr }] }
    else if tagName ∈ CONTENT_BLOCK_TAGS then
      renderList ctx children (preserveSpace || tagName == "pre") (addTextToIndex ctx st)
    else if tagName ∈ CONTENT_INLINE_TAGS then
      renderList ctx children preserveSpace st
    else st
  | .text data =>
    if preserveSpace || jsTrim data != "" then
      { st with indexedText := st.indexedText ++ data }
    else st
  | .comment data =>
    if ctx.hasExcerpt && !ctx.indexContent && isExcerptMarker (.comment data) then
      { st with shouldIndexContent := false }
    else st
  termination_by structural node

/-- Embeds `nodes.forEach(node => render(node, ...))` over a child list. -/
def renderList (ctx : PageCtx) (nodes : List Node) (preserveSpace : Bool)
    (st : SegState) : SegState :=
  match nodes with
  | [] => st
  | n :: rest => renderList ctx rest preserveSpace (render ctx n preserveSpace st)
  termination_by structural nodes

end

/-! ### `generatePageDocuments` -/

/-- The per-page constants of `generatePageDocuments`. -/
def pageCtx (page : Page) (baseUrl : String) (indexContent : Bool) : PageCtx :=
  { pageUrl := baseUrl ++ page.path
    lang := page.lang
    pageRank := page.pageRank.getD 0
    hasExcerpt := page.hasExcerpt
    indexContent := indexContent }

/-- The initial traversal state: indexing active iff the page has an
excerpt or full-content indexing is on; `currentHeading[0]` is the
synthetic level-0 title frame with a `null` id. -/
def initState (page : Page) (indexContent : Bool) : SegState :=
  { shouldIndexContent := page.hasExcerpt || indexContent
    currentHeading := [{ level := 0, text := page.title, id := JsVal.null }]
    indexedText := ""
    position := 0
    documents := [] }

/-- The raw per-page document list: walk every top-level node, then run
the final `addTextToIndex()` flush. -/
def emittedDocuments (page : Page) (baseUrl : String) (indexContent : Bool) :
    List MeiliSearchDocument :=
  (addTextToIndex (pageCtx page baseUrl indexContent)
    (renderList (pageCtx page baseUrl indexContent) page.nodes false
      (initState page indexContent))).documents

/-- The synthesized record pushed when the traversal emitted no documents
at all (`title || null` in the hierarchy fields). -/
def placeholderDocument (page : Page) (baseUrl : String) : MeiliSearchDocument :=
  { content := ""
    url := baseUrl ++ page.path
    anchor := none
    objectID := generateObjectID (baseUrl ++ page.path) none 0
    hierarchy_lvl0 := if page.title = "" then none else some page.title
    hierarchy_lvl1 := none
    hierarchy_lvl2 := none
    hierarchy_lvl3 := none
    hierarchy_lvl4 := none
    hierarchy_lvl5 := none
    hierarchy_lvl6 := none
    hierarchy_radio_lvl0 := if page.title = "" then none else some page.title
    hierarchy_radio_lvl1 := none
    hierarchy_radio_lvl2 := none
    hierarchy_radio_lvl3 := none
    hierarchy_radio_lvl4 := none
    hierarchy_radio_lvl5 := none
    lang := if page.lang = "" then "en" else page.lang
    level := 0
    position := 0
    page_rank := page.pageRank.getD 0 }

/-- Function `generatePageDocuments` from the source: an unparseable or empty
markup yields `[]`; otherwise walk the nodes, keep only the non-empty
documents when any exists, and fall back to the placeholder when nothing
was emitted at all. -/
def generatePageDocuments (page : Page) (baseUrl : String) (indexContent : Bool) :
    List MeiliSearchDocument :=
  if page.nodes.isEmpty then []
  else
    let documents := emittedDocuments page baseUrl indexContent
    let nonEmptyDocuments := documents.filter (fun d => jsTrim d.content != "")
    if nonEmptyDocuments.length > 0 then nonEmptyDocuments
    else if documents.length = 0 then [placeholderDocument page baseUrl]
    else documents

/-! ### Index sync engine (`deployToMeilisearch`)

The Meilisearch client is an external collaborator; only the call
sequence (`deleteAllDocuments` then `addDocuments` in `full` mode,
`updateDocuments` alone in `incremental` mode) is repository code. -/

/-- Type `DeployType` from the source. -/
inductive DeployType where
  | full
  | incremental
  deriving DecidableEq, Repr

/-- Modelled from the spec: the remote store's bulk-upsert-by-id
primitive — a document replaces the stored document with the same
`objectID`, or is appended when none exists. -/
def upsertOne (store : List MeiliSearchDocument) (d : MeiliSearchDocument) :
    List MeiliSearchDocument :=
  if store.any (fun e => e.objectID == d.objectID) then
    store.map (fun e => if e.objectID == d.objectID then d else e)
  else store ++ [d]

/-- Modelled from the spec: the remote store's delete-all-in-collection
primitive. -/
def deleteAllDocuments (_ : List MeiliSearchDocument) : List MeiliSearchDocument :=
  []

/-- Modelled from the spec: the remote store's bulk-insert
(`addDocuments`), an upsert by `objectID` of each document in order. -/
def addDocuments (store : List MeiliSearchDocument)
    (docs : List MeiliSearchDocument) : List MeiliSearchDocument :=
  docs.foldl upsertOne store

/-- Modelled from the spec: `updateDocuments`, the bulk-upsert-by-id used
by incremental mode; at whole-document granularity it coincides with
`addDocuments`. -/
def updateDocuments (store : List MeiliSearchDocument)
    (docs : List MeiliSearchDocument) : List MeiliSearchDocument :=
  docs.foldl upsertOne store

/-- The state transition `deployToMeilisearch` performs on the remote
collection: `full` mode deletes everything then bulk-inserts; incremental
mode bulk-upserts. -/
def deployToMeilisearch (deployType : DeployType)
    (documents : List MeiliSearchDocument)
    (store : List MeiliSearchDocument) : List MeiliSearchDocument :=
  match deployType with
  | .full => addDocuments (deleteAllDocuments store) documents
  | .incremental => updateDocuments store documents

/-! ### Concrete inputs used by counterexamples and witnesses -/

/-- A page with an `h2` carrying an `id`, an `h3` without one, and a
paragraph of body text: rendered form of
`<h2 id="x">A</h2><h3>B</h3><p>body</p>`. -/
def c1Page : Page :=
  { title := "T"
    lang := "en"
    path := "/p"
    pageRank := none
    hasExcerpt := false
    nodes := [.tag "h2" (some "x") none [.text "A"],
              .tag "h3" none none [.text "B"],
              .tag "p" none none [.text "body"]] }

/-- The excerpt-truncation page of the spec: rendered form of
`<p>A</p><!--more--><p>B</p>`, with an excerpt declared. -/
def c2Page : Page :=
  { title := "T"
    lang := "en"
    path := "/p"
    pageRank := none
    hasExcerpt := true
    nodes := [.tag "p" none none [.text "A"],
              .comment "more",
              .tag "p" none none [.text "B"]] }

/-- A `pre` block whose text contains a double newline:
`<pre>a\n\nb</pre>`. -/
def c3PrePage : Page :=
  { title := "T"
    lang := "en"
    path := "/p"
    pageRank := none
    hasExcerpt := false
    nodes := [.tag "pre" none none [.text "a\n\nb"]] }

/-- A `pre` block with a whitespace-only text node separating two code
spans: `<pre><code>a</code>\n\n<code>b</code></pre>`. -/
def c3PreSepPage : Page :=
  { title := "T"
    lang := "en"
    path := "/p"
    pageRank := none
    hasExcerpt := false
    nodes := [.tag "pre" none none
                [.tag "code" none none [.text "a"],
                 .text "\n\n",
                 .tag "code" none none [.text "b"]]] }

/-- The same whitespace-only separator outside any `pre` block:
`<span>a</span>\n\n<span>b</span>`. -/
def c3SpanSepPage : Page :=
  { title := "T"
    lang := "en"
    path := "/p"
    pageRank := none
    hasExcerpt := false
    nodes := [.tag "span" none none [.text "a"],
              .text "\n\n",
              .tag "span" none none [.text "b"]] }

/-- A page observing `h2`, then `h3`, then `h2` again. -/
def c5Page : Page :=
  { title := "T"
    lang := "en"
    path := "/p"
    pageRank := none
    hasExcerpt := false
    nodes := [.tag "h2" (some "a") none [.text "A"],
              .tag "h3" (some "b") none [.text "B"],
              .tag "h2" (some "c") none [.text "C"]] }

/-- A page emitting one non-empty-content and two empty-content
documents: `<p>x</p><p></p>`. -/
def c7Page : Page :=
  { title := "T"
    lang := "en"
    path := "/p"
    pageRank := none
    hasExcerpt := false
    nodes := [.tag "p" none none [.text "x"],
              .tag "p" none none [.text ""]] }

/-- A page with an EMPTY title whose body text is never indexed
(no excerpt, full-content indexing off), so the placeholder is
synthesized. -/
def c8Page : Page :=
  { title := ""
    lang := ""
    path := "/p"
    pageRank := none
    hasExcerpt := false
    nodes := [.text "hi"] }

/-- The same placeholder-producing page with a non-empty title. -/
def c8TitledPage : Page :=
  { title := "T"
    lang := "en"
    path := "/p"
    pageRank := none
    hasExcerpt := false
    nodes := [.text "hi"] }

/-- A page with a heading and body text, used to instantiate the
hierarchy-lvl0 theorem. -/
def c10Page : Page :=
  { title := "Home"
    lang := "en"
    path := "/p"
    pageRank := none
    hasExcerpt := false
    nodes := [.tag "h2" (some "x") none [.text "A"],
              .tag "p" none none [.text "body"]] }

/-- A minimal remote-store document with the given numeric `objectID`. -/
def sampleDoc (n : Nat) : MeiliSearchDocument :=
  { content := "c" ++ toString n
    url := "/u"
    anchor := none
    objectID := toString n
    hierarchy_lvl0 := none
    hierarchy_lvl1 := none
    hierarchy_lvl2 := none
    hierarchy_lvl3 := none
    hierarchy_lvl4 := none
    hierarchy_lvl5 := none
    hierarchy_lvl6 := none
    hierarchy_radio_lvl0 := none
    hierarchy_radio_lvl1 := none
    hierarchy_radio_lvl2 := none
    hierarchy_radio_lvl3 := none
    hierarchy_radio_lvl4 := none
    hierarchy_radio_lvl5 := none
    lang := "en"
    level := 0
    position := n
    page_rank := 0 }

/-- A remote collection holding ten documents. -/
def sampleStore : List MeiliSearchDocument := (List.range 10).map sampleDoc

/-- A five-document new set, with `objectID`s disjoint from
`sampleStore`. -/
def sampleNewDocs : List MeiliSearchDocument :=
  (List.range 5).map (fun n => sampleDoc (100 + n))

/-! ## Helper lemmas -/

/-- Flushing never touches the heading stack. -/
theorem addTextToIndex_currentHeading (ctx : PageCtx) (st : SegState) :
    (addTextToIndex ctx st).currentHeading = st.currentHeading := by
  unfold addTextToIndex
  split <;> rfl

/-- Bulk-upsert of documents with fresh, pairwise distinct `objectID`s is
an append. -/
theorem addDocuments_disjoint (store docs : List MeiliSearchDocument)
    (hnd : (docs.map MeiliSearchDocument.objectID).Nodup)
    (hdisj : ∀ e ∈ store, ∀ d ∈ docs, e.objectID ≠ d.objectID) :
    addDocuments store docs = store ++ docs := by
  induction docs generalizing store with
  | nil => simp [addDocuments]
  | cons d ds ih =>
    have hmem : d.objectID ∉ ds.map MeiliSearchDocument.objectID :=
      (List.nodup_cons.mp (by simpa using hnd)).1
    have htail : (ds.map MeiliSearchDocument.objectID).Nodup :=
      (List.nodup_cons.mp (by simpa using hnd)).2
    have hany : store.any (fun e => e.objectID == d.objectID) = false := by
      rw [List.any_eq_false]
      intro e he
      simpa using hdisj e he d (List.mem_cons_self d ds)
    have h1 : upsertOne store d = store ++ [d] := by
      unfold upsertOne
      simp [hany]
    have hdisj' : ∀ e ∈ store ++ [d], ∀ d' ∈ ds, e.objectID ≠ d'.objectID := by
      intro e he d' hd'
      rcases List.mem_append.mp he with h | h
      · exact hdisj e h d' (List.mem_cons_of_mem d hd')
      · have : e = d := by simpa using h
        subst this
        intro hEq
        exact hmem (hEq ▸ List.mem_map_of_mem MeiliSearchDocument.objectID hd')
    calc addDocuments store (d :: ds)
        = addDocuments (store ++ [d]) ds := by
          simp [addDocuments, h1]
      _ = (store ++ [d]) ++ ds := ih (store ++ [d]) htail hdisj'
      _ = store ++ d :: ds := by simp

/-! ## Claim C6 — document identity generator -/

/-- C6 fails as stated: JavaScript tests the anchor for truthiness, not
for non-nullness, so a present-but-EMPTY anchor string takes the
`url`-only branch.  With `url = "u"`, `anchor = some ""`: changing the
position does not change the output (first conjunct), and the output is
not the SHA-1 of `"u#-0"` as the claimed formula demands (second
conjunct). -/
theorem c6_objectID_counterexample :
    generateObjectID "u" (some "") 0 = generateObjectID "u" (some "") 1 ∧
    generateObjectID "u" (some "") 0 ≠
      sha1Hex ("u" ++ "#" ++ "" ++ "-" ++ toString (0 : Nat)) :=
  ⟨rfl, by decide⟩

/-- C6 (amended): `objectID` is the hex SHA-1 of
`url#anchor-position` when the anchor is non-null AND non-empty, and of
`url` alone when the anchor is null or empty; the generator is
deterministic; and with a non-empty anchor, distinct positions give
distinct identifiers at the tested input. -/
theorem c6_objectID_amended :
    (∀ url pos, generateObjectID url none pos = sha1Hex url) ∧
    (∀ url a pos, generateObjectID url (some a) pos =
      if a = "" then sha1Hex url
      else sha1Hex (url ++ "#" ++ a ++ "-" ++ toString pos)) ∧
    (∀ url anchor pos,
      generateObjectID url anchor pos = generateObjectID url anchor pos) ∧
    generateObjectID "u" (some "a") 0 ≠ generateObjectID "u" (some "a") 1 := by
  refine ⟨fun url pos => rfl, fun url a pos => ?_, fun _ _ _ => rfl, by decide⟩
  by_cases h : a = "" <;> simp [generateObjectID, idSource, h]

/-! ## Claim C9 — full-mode sync -/

/-- C9: full-mode deployment is delete-all followed by bulk-insert, and
for a new set with pairwise distinct `objectID`s the remote collection
afterwards holds exactly the new documents, whatever it held before. -/
theorem c9_full_sync (store docs : List MeiliSearchDocument)
    (h : (docs.map MeiliSearchDocument.objectID).Nodup) :
    deployToMeilisearch DeployType.full docs store =
      addDocuments (deleteAllDocuments store) docs ∧
    deployToMeilisearch DeployType.full docs store = docs := by
  refine ⟨rfl, ?_⟩
  have hx := addDocuments_disjoint [] docs h (by intro e he; simp at he)
  simpa [deployToMeilisearch, deleteAllDocuments] using hx

/-- C9 witness: ten existing documents, five new ones, five afterwards. -/
theorem c9_full_sync_witness :
    (sampleNewDocs.map MeiliSearchDocument.objectID).Nodup ∧
    sampleStore.length = 10 ∧ sampleNewDocs.length = 5 ∧
    deployToMeilisearch DeployType.full sampleNewDocs sampleStore = sampleNewDocs :=
  ⟨by decide, by decide, by decide,
    (c9_full_sync sampleStore sampleNewDocs (by decide)).2⟩

/-! ## Claim C2 — excerpt truncation -/

/-- C2 evaluated at the failing input: for
`<p>A</p><!--more--><p>B</p>` with an excerpt present and full-content
indexing disabled, the emitted output is a single EMPTY document — the
text `A`, still sitting in the accumulator when the marker turns
indexing off, is never flushed, contradicting the claimed (and clearly
intended) behavior that `A` is indexed. -/
theorem c2_excerpt_truncation_eval :
    (generatePageDocuments c2Page "" false).map MeiliSearchDocument.content = [""] := by
  decide

/-! ## Claim C5 — heading eviction sequence -/

/-- C5 fails as stated: after observing `h2`, `h3`, `h2` the active
levels are `[0, 2]` — there is no level-1 frame, so the claimed level set
`{0, 1, 2}` is wrong. -/
theorem c5_heading_eviction_counterexample :
    ((renderList (pageCtx c5Page "" true) c5Page.nodes false
        (initState c5Page true)).currentHeading.map Frame.level) = [0, 2] ∧
    (1 : Nat) ∉ ((renderList (pageCtx c5Page "" true) c5Page.nodes false
        (initState c5Page true)).currentHeading.map Frame.level) :=
  ⟨by decide, by decide⟩

/-- C5 (amended): observing `h2` then `h3` then `h2` leaves active frames
for exactly the levels `{0, 2}` — the title frame and the second `h2`
frame; the `h3` frame (and the first `h2` frame) are evicted. -/
theorem c5_heading_eviction_amended :
    (renderList (pageCtx c5Page "" true) c5Page.nodes false
        (initState c5Page true)).currentHeading =
      [{ level := 0, text := "T", id := JsVal.null },
       { level := 2, text := "C", id := JsVal.str "c" }] := by
  decide

/-! ## Claim C3 — whitespace in `pre` blocks -/

/-- C3 fails as stated: the emitted content of a `pre` block containing
`a\n\nb` is `"a b"` — emission normalizes every whitespace run to one
space regardless of the preserve flag, so the newline run is NOT retained
verbatim in the document (no emitted content contains a newline at
all). -/
theorem c3_pre_whitespace_counterexample :
    (generatePageDocuments c3PrePage "" true).map MeiliSearchDocument.content =
      ["a b"] ∧
    ∀ d ∈ generatePageDocuments c3PrePage "" true, '\n' ∉ d.content.data :=
  ⟨by decide, by decide⟩

/-- C3 (amended): inside a preserve (`pre`) context every text node —
whitespace-only runs included — is appended verbatim to the accumulator,
while outside it whitespace-only nodes contribute nothing; emitted
content then collapses all whitespace runs to single spaces in both
cases.  The observable difference: a whitespace-only separator inside
`pre` yields `"a b"`, the same separator outside `pre` yields `"ab"`. -/
theorem c3_pre_whitespace_amended :
    (∀ ctx d st, render ctx (Node.text d) true st =
        { st with indexedText := st.indexedText ++ d }) ∧
    (∀ ctx d st, render ctx (Node.text d) false st =
        if jsTrim d != "" then { st with indexedText := st.indexedText ++ d }
        else st) ∧
    (generatePageDocuments c3PreSepPage "" true).map MeiliSearchDocument.content =
      ["a b"] ∧
    (generatePageDocuments c3SpanSepPage "" true).map MeiliSearchDocument.content =
      ["ab"] := by
  refine ⟨fun ctx d st => ?_, fun ctx d st => ?_, by decide, by decide⟩
  · simp [render]
  · simp [render]

/-! ## Claim C7 — non-empty preference -/

/-- C7: whenever some emitted document has non-empty content, the
segmenter returns exactly the non-empty-content documents, as the
order-preserving (sublist) filter of the emitted list — positions are
fields of the documents themselves, hence unchanged. -/
theorem c7_nonempty_filter (page : Page) (baseUrl : String) (ic : Bool)
    (h : ∃ d ∈ emittedDocuments page baseUrl ic, jsTrim d.content ≠ "") :
    generatePageDocuments page baseUrl ic =
      (emittedDocuments page baseUrl ic).filter (fun d => jsTrim d.content != "") ∧
    ((emittedDocuments page baseUrl ic).filter
        (fun d => jsTrim d.content != "")).Sublist
      (emittedDocuments page baseUrl ic) := by
  obtain ⟨d, hd, hdc⟩ := h
  have hdf : d ∈ (emittedDocuments page baseUrl ic).filter
      (fun d => jsTrim d.content != "") :=
    List.mem_filter.mpr ⟨hd, by simpa using hdc⟩
  have hlen : 0 < ((emittedDocuments page baseUrl ic).filter
      (fun d => jsTrim d.content != "")).length :=
    List.length_pos_of_mem hdf
  have hne : page.nodes ≠ [] := by
    intro hnil
    have hred : emittedDocuments page baseUrl ic =
        (addTextToIndex (pageCtx page baseUrl ic) (initState page ic)).documents := by
      simp [emittedDocuments, hnil, renderList]
    rw [hred] at hd
    revert hd
    unfold addTextToIndex
    split
    · intro hd
      simp [initState] at hd
      rw [hd] at hdc
      exact hdc rfl
    · intro hd
      simp [initState] at hd
  have hie : page.nodes.isEmpty = false := by
    cases hp : page.nodes with
    | nil => exact absurd hp hne
    | cons a l => rfl
  refine ⟨?_, List.filter_sublist _⟩
  unfold generatePageDocuments
  rw [hie]
  simp only [Bool.false_eq_true, if_false]
  rw [if_pos hlen]

/-- C7 witness: `<p>x</p><p></p>` emits one non-empty and two empty
documents, and the segmenter returns the filter. -/
theorem c7_nonempty_filter_witness :
    (∃ d ∈ emittedDocuments c7Page "" true, jsTrim d.content ≠ "") ∧
    generatePageDocuments c7Page "" true =
      (emittedDocuments c7Page "" true).filter (fun d => jsTrim d.content != "") :=
  ⟨by decide, (c7_nonempty_filter c7Page "" true (by decide)).1⟩

/-! ## Claim C8 — empty pages and the placeholder -/

/-- C8 fails in one detail: the placeholder's `hierarchy_lvl0` is
`title || null`, so for a page whose title is the EMPTY string the field
is `null`, not the page title.  Concretely, `c8Page` (title `""`,
markup parsing to one text node, no indexing) yields a placeholder whose
`hierarchy_lvl0` is `none ≠ some ""`. -/
theorem c8_placeholder_counterexample :
    (generatePageDocuments c8Page "" false).map
      (fun d => d.hierarchy_lvl0) = [none] ∧
    c8Page.title = "" ∧ (none : Option String) ≠ some c8Page.title :=
  ⟨by decide, rfl, by decide⟩

/-- C8 (amended): the segmenter returns `[]` exactly when the parsed
node list is empty; when nodes exist but the traversal emitted nothing,
it returns exactly one placeholder with empty content, null anchor,
level 0, position 0, and `hierarchy_lvl0`/`hierarchy_radio_lvl0` equal
to the page title when the title is non-empty and null when it is
empty. -/
theorem c8_empty_and_placeholder_amended (page : Page) (baseUrl : String)
    (ic : Bool) :
    (generatePageDocuments page baseUrl ic = [] ↔ page.nodes = []) ∧
    (page.nodes ≠ [] → emittedDocuments page baseUrl ic = [] →
      generatePageDocuments page baseUrl ic = [placeholderDocument page baseUrl] ∧
      (placeholderDocument page baseUrl).content = "" ∧
      (placeholderDocument page baseUrl).anchor = none ∧
      (placeholderDocument page baseUrl).level = 0 ∧
      (placeholderDocument page baseUrl).position = 0 ∧
      (placeholderDocument page baseUrl).hierarchy_lvl0 =
        (if page.title = "" then none else some page.title) ∧
      (placeholderDocument page baseUrl).hierarchy_radio_lvl0 =
        (if page.title = "" then none else some page.title)) := by
  constructor
  · constructor
    · intro hgen
      by_contra hne
      have hie : page.nodes.isEmpty = false := by
        cases hp : page.nodes with
        | nil => exact absurd hp hne
        | cons a l => rfl
      revert hgen
      unfold generatePageDocuments
      rw [hie]
      simp only [Bool.false_eq_true, if_false]
      split
      · intro hgen
        rename_i hpos
        rw [hgen] at hpos
        simp at hpos
      · split
        · intro hgen
          exact List.cons_ne_nil _ _ hgen
        · intro hgen
          rename_i hlen0
          rw [hgen] at hlen0
          simp at hlen0
    · intro hnil
      have hie : page.nodes.isEmpty = true := by rw [hnil]; rfl
      unfold generatePageDocuments
      rw [hie]
      simp
  · intro hne hemp
    have hie : page.nodes.isEmpty = false := by
      cases hp : page.nodes with
      | nil => exact absurd hp hne
      | cons a l => rfl
    refine ⟨?_, rfl, rfl, rfl, rfl, rfl, rfl⟩
    unfold generatePageDocuments
    rw [hie]
    simp only [Bool.false_eq_true, if_false]
    rw [hemp]
    simp

/-- C8 witness: a page with title `"T"` parsing to one never-indexed
text node gets exactly the placeholder, with `hierarchy_lvl0 = some "T"`. -/
theorem c8_empty_and_placeholder_witness :
    c8TitledPage.nodes ≠ [] ∧
    emittedDocuments c8TitledPage "" false = [] ∧
    generatePageDocuments c8TitledPage "" false =
      [placeholderDocument c8TitledPage ""] ∧
    (placeholderDocument c8TitledPage "").hierarchy_lvl0 = some "T" :=
  ⟨List.cons_ne_nil _ _, by decide,
   ((c8_empty_and_placeholder_amended c8TitledPage "" false).2
      (List.cons_ne_nil _ _) (by decide)).1,
   by decide⟩

/-! ## Traversal invariants -/

/-- Heading tags parse to levels between 1 and 6; in particular a
heading never has level 0, so the synthetic title frame survives every
eviction. -/
theorem headingLevel_of_mem (t : String) (h : t ∈ HEADING_TAGS) :
    1 ≤ headingLevel t ∧ headingLevel t ≤ 6 := by
  simp only [HEADING_TAGS, List.mem_cons, List.not_mem_nil, or_false] at h
  rcases h with rfl | rfl | rfl | rfl | rfl | rfl <;> decide

mutual

/-- A state predicate preserved by flushing, by the heading frame
update (for levels ≥ 1), by accumulator writes and by turning indexing
off is preserved by `render`. -/
theorem render_preserves (P : SegState → Prop)
    (hflush : ∀ ctx st, P st → P (addTextToIndex ctx st))
    (hhead : ∀ st t i L, 1 ≤ L → P st →
      P { st with currentHeading :=
            st.currentHeading.filter (fun f => f.level < L) ++
              [{ level := L, text := t, id := i }] })
    (htext : ∀ st s, P st → P { st with indexedText := s })
    (hstop : ∀ st, P st → P { st with shouldIndexContent := false })
    (ctx : PageCtx) (node : Node) (ps : Bool) (st : SegState) (h : P st) :
    P (render ctx node ps st) := by
  cases node with
  | tag name idAttr classAttr children =>
    by_cases hh : lowerStr name ∈ HEADING_TAGS
    · have h1 : 1 ≤ headingLevel (lowerStr name) := (headingLevel_of_mem _ hh).1
      simp only [render, if_pos hh]
      exact hhead _ _ _ _ h1 (hflush ctx st h)
    · by_cases hb : lowerStr name ∈ CONTENT_BLOCK_TAGS
      · simp only [render, if_neg hh, if_pos hb]
        exact renderList_preserves P hflush hhead htext hstop ctx children _ _
          (hflush ctx st h)
      · by_cases hi : lowerStr name ∈ CONTENT_INLINE_TAGS
        · simp only [render, if_neg hh, if_neg hb, if_pos hi]
          exact renderList_preserves P hflush hhead htext hstop ctx children _ _ h
        · simp only [render, if_neg hh, if_neg hb, if_neg hi]
          exact h
  | text d =>
    simp only [render]
    split
    · exact htext _ _ h
    · exact h
  | comment d =>
    simp only [render]
    split
    · exact hstop _ h
    · exact h

/-- List version of `render_preserves`. -/
theorem renderList_preserves (P : SegState → Prop)
    (hflush : ∀ ctx st, P st → P (addTextToIndex ctx st))
    (hhead : ∀ st t i L, 1 ≤ L → P st →
      P { st with currentHeading :=
            st.currentHeading.filter (fun f => f.level < L) ++
              [{ level := L, text := t, id := i }] })
    (htext : ∀ st s, P st → P { st with indexedText := s })
    (hstop : ∀ st, P st → P { st with shouldIndexContent := false })
    (ctx : PageCtx) (nodes : List Node) (ps : Bool) (st : SegState) (h : P st) :
    P (renderList ctx nodes ps st) := by
  cases nodes with
  | nil => simpa [renderList] using h
  | cons n rest =>
    simp only [renderList]
    exact renderList_preserves P hflush hhead htext hstop ctx rest ps _
      (render_preserves P hflush hhead htext hstop ctx n ps st h)

end

/-! ## Claim C4 — one frame per level, eviction at ≥ L -/

/-- C4: (a) `render` preserves per-level uniqueness of active frames;
(b) the initial stack satisfies it; (c) observing a heading replaces the
stack by exactly the frames of strictly smaller level (in order,
unchanged) plus the new frame, the new level is ≥ 1 (so the level-0
title frame is among the survivors), and every frame of smaller level
survives. -/
theorem c4_heading_stack_invariant :
    (∀ ctx node ps st,
      (st.currentHeading.map Frame.level).Nodup →
      ((render ctx node ps st).currentHeading.map Frame.level).Nodup) ∧
    (∀ page ic, ((initState page ic).currentHeading.map Frame.level).Nodup) ∧
    (∀ ctx name idAttr classAttr children ps st,
      lowerStr name ∈ HEADING_TAGS →
      (render ctx (Node.tag name idAttr classAttr children) ps st).currentHeading =
        st.currentHeading.filter
          (fun f => f.level < headingLevel (lowerStr name)) ++
          [{ level := headingLevel (lowerStr name)
             text := renderHeader (Node.tag name idAttr classAttr children)
             id := jsOfAttr idAttr }] ∧
      1 ≤ headingLevel (lowerStr name) ∧
      ∀ f ∈ st.currentHeading, f.level < headingLevel (lowerStr name) →
        f ∈ (render ctx (Node.tag name idAttr classAttr children) ps st).currentHeading) := by
  have hhead : ∀ (st : SegState) t i L, 1 ≤ L →
      (st.currentHeading.map Frame.level).Nodup →
      (({ st with currentHeading :=
            st.currentHeading.filter (fun f => f.level < L) ++
              [{ level := L, text := t, id := i }] } :
          SegState).currentHeading.map Frame.level).Nodup := by
    intro st t i L _ hnd
    simp only [List.map_append, List.map_cons, List.map_nil]
    refine List.Nodup.append ?_ (List.nodup_singleton _) ?_
    · exact hnd.sublist (List.Sublist.map _ (List.filter_sublist _))
    · intro a ha hb
      simp only [List.mem_map, List.mem_filter] at ha
      obtain ⟨f, ⟨_, hflt⟩, rfl⟩ := ha
      simp only [List.mem_singleton] at hb
      exact absurd hb (Nat.ne_of_lt (by simpa using hflt))
  refine ⟨?_, ?_, ?_⟩
  · intro ctx node ps st h
    exact render_preserves (fun st => (st.currentHeading.map Frame.level).Nodup)
      (fun ctx st h => by
        show ((addTextToIndex ctx st).currentHeading.map Frame.level).Nodup
        rwa [addTextToIndex_currentHeading])
      hhead (fun st s h => h) (fun st h => h) ctx node ps st h
  · intro page ic
    simp [initState]
  · intro ctx name idAttr classAttr children ps st hmem
    have heq :
        (render ctx (Node.tag name idAttr classAttr children) ps st).currentHeading =
        st.currentHeading.filter
          (fun f => f.level < headingLevel (lowerStr name)) ++
          [{ level := headingLevel (lowerStr name)
             text := renderHeader (Node.tag name idAttr classAttr children)
             id := jsOfAttr idAttr }] := by
      simp only [render, if_pos hmem]
      rw [addTextToIndex_currentHeading]
    refine ⟨heq, (headingLevel_of_mem _ hmem).1, ?_⟩
    intro f hf hlt
    rw [heq]
    exact List.mem_append_left _ (List.mem_filter.mpr ⟨hf, by simpa using hlt⟩)

/-- C4 witness: concrete instantiations discharging each hypothesis. -/
theorem c4_heading_stack_invariant_witness :
    ((initState c5Page true).currentHeading.map Frame.level).Nodup ∧
    ((render (pageCtx c5Page "" true)
        (Node.tag "h2" (some "a") none [Node.text "A"]) false
        (initState c5Page true)).currentHeading.map Frame.level).Nodup ∧
    lowerStr "h2" ∈ HEADING_TAGS ∧
    1 ≤ headingLevel (lowerStr "h2") :=
  ⟨c4_heading_stack_invariant.2.1 c5Page true,
   c4_heading_stack_invariant.1 _ _ _ _ (by decide),
   by decide,
   (c4_heading_stack_invariant.2.2 (pageCtx c5Page "" true) "h2" (some "a")
      none [Node.text "A"] false (initState c5Page true) (by decide)).2.1⟩

/-! ## Claim C10 — the level-0 title frame -/

/-- Invariant: the head of the heading stack is the synthetic title
frame, and every document emitted so far carries
`hierarchy_lvl0 = title || null`. -/
def titleInv (T : String) (st : SegState) : Prop :=
  st.currentHeading.head? = some { level := 0, text := T, id := JsVal.null } ∧
  ∀ d ∈ st.documents, d.hierarchy_lvl0 = (if T = "" then none else some T)

/-- When the title frame heads the stack, the level-0 hierarchy lookup
yields `title || null`. -/
theorem hierarchyLvl_zero (T : String) (frames : List Frame)
    (h : frames.head? = some { level := 0, text := T, id := JsVal.null }) :
    hierarchyLvl frames 0 = (if T = "" then none else some T) := by
  cases frames with
  | nil => simp at h
  | cons f rest =>
    simp only [List.head?_cons, Option.some.injEq] at h
    subst h
    simp [hierarchyLvl, List.find?]

/-- Flushing preserves the title invariant: the appended document reads
its `hierarchy_lvl0` from the level-0 frame at the stack head. -/
theorem addTextToIndex_titleInv (T : String) (ctx : PageCtx) (st : SegState)
    (h : titleInv T st) : titleInv T (addTextToIndex ctx st) := by
  unfold addTextToIndex
  split
  · refine ⟨h.1, ?_⟩
    intro d hd
    rcases List.mem_append.mp hd with hd | hd
    · exact h.2 d hd
    · simp only [List.mem_singleton] at hd
      subst hd
      exact hierarchyLvl_zero T st.currentHeading h.1
  · exact h

/-- C10: for every page whose markup parses into at least one node,
every returned document — the placeholder included — has
`hierarchy_lvl0` equal to the page title when the title is non-empty and
`null` when it is empty; the level-0 title frame is never evicted. -/
theorem c10_title_hierarchy (page : Page) (baseUrl : String) (ic : Bool)
    (hne : page.nodes ≠ []) :
    ∀ d ∈ generatePageDocuments page baseUrl ic,
      d.hierarchy_lvl0 = (if page.title = "" then none else some page.title) := by
  have hinit : titleInv page.title (initState page ic) :=
    ⟨rfl, by simp [initState]⟩
  have hfin : titleInv page.title
      (addTextToIndex (pageCtx page baseUrl ic)
        (renderList (pageCtx page baseUrl ic) page.nodes false
          (initState page ic))) := by
    refine addTextToIndex_titleInv _ _ _ ?_
    refine renderList_preserves (titleInv page.title)
      (fun ctx st h => addTextToIndex_titleInv _ ctx st h)
      ?_ (fun st s h => h) (fun st h => h) _ _ _ _ hinit
    intro st t i L hL h
    obtain ⟨hhd, hdocs⟩ := h
    refine ⟨?_, hdocs⟩
    show (st.currentHeading.filter (fun (f : Frame) => f.level < L) ++
        [({ level := L, text := t, id := i } : Frame)]).head? =
      some ({ level := 0, text := page.title, id := JsVal.null } : Frame)
    cases hfr : st.currentHeading with
    | nil => rw [hfr] at hhd; simp at hhd
    | cons f rest =>
      rw [hfr] at hhd
      simp only [List.head?_cons, Option.some.injEq] at hhd
      subst hhd
      have h0L : (0 : Nat) < L := Nat.lt_of_lt_of_le Nat.zero_lt_one hL
      simp [List.filter_cons, h0L]
  have hemit : ∀ d ∈ emittedDocuments page baseUrl ic,
      d.hierarchy_lvl0 = (if page.title = "" then none else some page.title) :=
    hfin.2
  have hie : page.nodes.isEmpty = false := by
    cases hp : page.nodes with
    | nil => exact absurd hp hne
    | cons a l => rfl
  intro d hd
  revert hd
  unfold generatePageDocuments
  rw [hie]
  simp only [Bool.false_eq_true, if_false]
  split
  · intro hd
    exact hemit d (List.mem_filter.mp hd).1
  · split
    · intro hd
      have hdeq : d = placeholderDocument page baseUrl := by simpa using hd
      rw [hdeq]
      rfl
    · intro hd
      exact hemit d hd

/-- C10 witness: a titled page with a heading and body text. -/
theorem c10_title_hierarchy_witness :
    c10Page.nodes ≠ [] ∧
    ∀ d ∈ generatePageDocuments c10Page "" true,
      d.hierarchy_lvl0 = (if c10Page.title = "" then none else some c10Page.title) :=
  ⟨List.cons_ne_nil _ _,
   c10_title_hierarchy c10Page "" true (List.cons_ne_nil _ _)⟩

/-! ## Claim C1 — anchor selection -/

/-- On a strictly level-ascending list whose members all exceed the
accumulator's level, the maximal-level fold returns the LAST frame. -/
theorem foldl_pickDeeper_sorted (l : List Frame) (a : Frame)
    (ha : ∀ f ∈ l, a.level < f.level)
    (hs : l.Pairwise (fun x y => x.level < y.level)) :
    l.foldl pickDeeper (some a) = (a :: l).getLast? := by
  induction l generalizing a with
  | nil => simp
  | cons b t ih =>
    have hab : b.level > a.level := ha b (List.mem_cons_self b t)
    have hstep : pickDeeper (some a) b = some b := by
      simp [pickDeeper, hab]
    rw [List.foldl_cons, hstep,
      ih b (List.pairwise_cons.mp hs).1 (List.pairwise_cons.mp hs).2]
    exact (List.getLast?_cons_cons).symm

/-- C1 fails as stated: frames for headings WITHOUT an `id` attribute
store `undefined`, which passes the `!== null` filter, so an id-less
deepest heading masks a shallower heading's id.  On
`<h2 id="x">A</h2><h3>B</h3><p>body</p>` the only returned document has
`anchor = null` although the active level-2 frame holds the non-null id
`"x"` (second conjunct shows the emission-time stack). -/
theorem c1_anchor_counterexample :
    (generatePageDocuments c1Page "" true).map MeiliSearchDocument.anchor =
      [none] ∧
    (renderList (pageCtx c1Page "" true) c1Page.nodes false
        (initState c1Page true)).currentHeading =
      [{ level := 0, text := "T", id := JsVal.null },
       { level := 2, text := "A", id := JsVal.str "x" },
       { level := 3, text := "B", id := JsVal.undef }] :=
  ⟨by decide, by decide⟩

/-- C1 (amended): on a well-formed stack — the level-0 title frame
(whose id is `null`) followed by heading frames (whose ids are never
`null`) in strictly increasing level order — the anchor is decided by
the DEEPEST frame alone: its id when that is a non-empty string, `null`
otherwise (ids of shallower frames are never consulted).  Every emitted
document's `anchor` field is this selection applied to the emission-time
stack. -/
theorem c1_anchor_amended :
    (∀ (f0 : Frame) (rest : List Frame),
      f0.id = JsVal.null →
      (∀ f ∈ rest, f.id ≠ JsVal.null) →
      (f0 :: rest).Pairwise (fun a b => a.level < b.level) →
      currentAnchorOf (f0 :: rest) =
        (match rest.getLast? with
         | some f =>
           match f.id with
           | JsVal.str s => if s = "" then none else some s
           | _ => none
         | none => none)) ∧
    (∀ ctx st, st.shouldIndexContent = true →
      ((addTextToIndex ctx st).documents.getLast?).map
          MeiliSearchDocument.anchor =
        some (currentAnchorOf st.currentHeading)) := by
  constructor
  · intro f0 rest h0 hr hs
    have hself : rest.filter (fun h => h.id != JsVal.null) = rest :=
      List.filter_eq_self.mpr (fun f hf => by simpa using hr f hf)
    have hfil : (f0 :: rest).filter (fun h => h.id != JsVal.null) = rest := by
      simp [List.filter_cons, h0, hself]
    unfold currentAnchorOf deepestNonNull
    rw [hfil]
    cases rest with
    | nil => rfl
    | cons b t =>
      have hs' := (List.pairwise_cons.mp hs).2
      rw [List.foldl_cons, show pickDeeper none b = some b from rfl,
        foldl_pickDeeper_sorted t b (List.pairwise_cons.mp hs').1
          (List.pairwise_cons.mp hs').2]
  · intro ctx st h
    unfold addTextToIndex
    rw [if_pos h]
    simp [List.getLast?_concat]

/-- C1 amended witness: the stack of `c1_anchor_counterexample` — the
deepest frame's id is `undefined`, so the anchor is `null` even though
the level-2 frame's id is `"x"`; and a flush under an active index flag
appends a document carrying the selected anchor. -/
theorem c1_anchor_amended_witness :
    (({ level := 0, text := "T", id := JsVal.null } : Frame).id = JsVal.null) ∧
    currentAnchorOf
      [{ level := 0, text := "T", id := JsVal.null },
       { level := 2, text := "A", id := JsVal.str "x" },
       { level := 3, text := "B", id := JsVal.undef }] = none ∧
    ((addTextToIndex (pageCtx c1Page "" true)
        (initState c1Page true)).documents.getLast?).map
        MeiliSearchDocument.anchor =
      some (currentAnchorOf (initState c1Page true).currentHeading) :=
  ⟨rfl,
   by
    have h := c1_anchor_amended.1
      { level := 0, text := "T", id := JsVal.null }
      [{ level := 2, text := "A", id := JsVal.str "x" },
       { level := 3, text := "B", id := JsVal.undef }]
      rfl (by decide) (by decide)
    exact h.trans (by decide),
   c1_anchor_amended.2 (pageCtx c1Page "" true) (initState c1Page true) rfl⟩

end Meili
